import Mathlib

/-!
Verification development for the transcript-GPA pipeline
(`app.py`, with the legacy `ocr_helper.py` module it merged).

Python strings are modelled as `List Char` (one entry per code point).
Python/NumPy floats are modelled as exact rationals (`Rat`); a finite
float value `q` is `some q`, and the non-finite results (NaN/inf) that an
unguarded division would produce are `none`.  External effects (the
Tesseract engine and the DeepSeek chat call) are modelled as explicit
oracle arguments describing the outcome of the call, and the number of
external calls actually performed is returned alongside the result.
-/

abbrev Chars := List Char

/-- Bool-valued list-prefix test (model of Python `str.startswith` and of
the leftmost-match search done by `str.replace` / `in`). -/
def isPre : Chars → Chars → Bool
  | [], _ => true
  | _ :: _, [] => false
  | p :: ps, c :: cs => p = c && isPre ps cs

/-- Model of Python's `sub in s` substring test. -/
def containsSub (sub : Chars) : Chars → Bool
  | [] => isPre sub []
  | c :: rest => isPre sub (c :: rest) || containsSub sub rest

/-- Whitespace stripped by Python `str.strip()` (ASCII fragment). -/
def isPyWs (c : Char) : Bool :=
  c = ' ' || c = '\t' || c = '\n' || c = '\r' || c = '\x0b' || c = '\x0c'

/-- Model of Python `str.strip()`. -/
def pyStrip (l : Chars) : Chars :=
  ((l.dropWhile isPyWs).reverse.dropWhile isPyWs).reverse

/-- Fuelled worker for `pyReplace`; one unit of fuel is spent per step, and
each step consumes at least one character, so `l.length` fuel always
suffices.  Matches are found left to right and do not overlap, exactly as
Python `str.replace` does (we never call it with an empty pattern). -/
def pyReplaceGo (pat rep : Chars) : Nat → Chars → Chars
  | _, [] => []
  | 0, l => l
  | n + 1, c :: rest =>
    if isPre pat (c :: rest) then rep ++ pyReplaceGo pat rep n ((c :: rest).drop pat.length)
    else c :: pyReplaceGo pat rep n rest

/-- Model of Python `s.replace(pat, rep)`. -/
def pyReplace (l pat rep : Chars) : Chars :=
  pyReplaceGo pat rep l.length l

/- ===============================================================
   GPA Aggregator (`calculate_gpa` in app.py).
   A record of the input list is a Python dict; only the three keys the
   function reads are modelled, each `Option` marking key presence.
   A value is a string, a number, or NaN.
   =============================================================== -/

/-- A cell value of the pandas DataFrame built in `calculate_gpa`
(string, numeric, or missing/NaN). -/
inductive PyVal where
  | str : Chars → PyVal
  | num : Rat → PyVal
  | nan : PyVal
deriving DecidableEq

/-- One element of `data_list`: a dict whose `subject` / `score` /
`credit` keys may each be absent. -/
structure InputRecord where
  subject : Option PyVal := none
  score : Option PyVal := none
  credit : Option PyVal := none
deriving DecidableEq

/-- A row of the DataFrame `pd.DataFrame(data_list)` restricted to the
three columns the code touches; a missing key materialises as NaN. -/
structure Row where
  subject : PyVal
  score : PyVal
  credit : PyVal
deriving DecidableEq

/-- A row of the returned DataFrame.  The derived columns `gpa_point` and
`weighted_point` exist only on the code path that adds them. -/
structure ResultRow where
  subject : PyVal
  score : PyVal
  credit : PyVal
  gpa_point : Option Rat := none
  weighted_point : Option Rat := none
deriving DecidableEq

/-- `pd.DataFrame(data_list)` row construction. -/
def toRow (r : InputRecord) : Row :=
  { subject := r.subject.getD .nan, score := r.score.getD .nan, credit := r.credit.getD .nan }

def isDigitC (c : Char) : Bool := '0' ≤ c && c ≤ '9'

def digitVal (c : Char) : Nat := c.toNat - 48

/-- Scan a maximal digit span, returning accumulated value, digit count
and the remaining input. -/
def digitSpan (acc cnt : Nat) : Chars → Nat × Nat × Chars
  | [] => (acc, cnt, [])
  | c :: r => if isDigitC c then digitSpan (acc * 10 + digitVal c) (cnt + 1) r else (acc, cnt, c :: r)

/-- Model of the numeric-text grammar accepted by `pd.to_numeric` /
Python `float()` on the fragment this program exercises:
optional surrounding whitespace, optional sign, decimal digits with an
optional fractional part and an optional exponent.  Everything else
(e.g. `"abc"`) fails. -/
def pyFloatOfChars (l : Chars) : Option Rat :=
  let l := pyStrip l
  let (sgn, l₁) : Rat × Chars :=
    match l with
    | '-' :: r => (-1, r)
    | '+' :: r => (1, r)
    | _ => (1, l)
  let (iv, icnt, l₂) := digitSpan 0 0 l₁
  let (fv, fcnt, l₃) : Nat × Nat × Chars :=
    match l₂ with
    | '.' :: r => digitSpan 0 0 r
    | _ => (0, 0, l₂)
  if icnt = 0 ∧ fcnt = 0 then none
  else
    let hadDot : Bool := match l₂ with | '.' :: _ => true | _ => false
    let l₄ : Chars := if hadDot then l₃ else l₂
    let mag : Rat := (iv : Rat) + (fv : Rat) / ((10 : Rat) ^ fcnt)
    match l₄ with
    | [] => some (sgn * mag)
    | e :: r =>
      if e = 'e' || e = 'E' then
        let (esgn, r₁) : Bool × Chars :=
          match r with
          | '+' :: t => (false, t)
          | '-' :: t => (true, t)
          | _ => (false, r)
        let (ev, ecnt, r₂) := digitSpan 0 0 r₁
        if ecnt = 0 ∨ r₂ ≠ [] then none
        else if esgn then some (sgn * mag / ((10 : Rat) ^ ev))
        else some (sgn * mag * ((10 : Rat) ^ ev))
      else none

/-- Model of `pd.to_numeric(x, errors='coerce')` on a single cell:
numbers pass through, numeric text is parsed, anything else coerces
to NaN. -/
def toNumericVal : PyVal → PyVal
  | .num q => .num q
  | .nan => .nan
  | .str s => match pyFloatOfChars s with
    | some q => .num q
    | none => .nan

def isNan : PyVal → Bool
  | .nan => true
  | _ => false

def isNum : PyVal → Bool
  | .num _ => true
  | _ => false

/-- `df['score'] = pd.to_numeric(df['score'], errors='coerce')`. -/
def coerceScoreRow (r : Row) : Row := { r with score := toNumericVal r.score }

/-- `df['credit'] = pd.to_numeric(df['credit'], errors='coerce')`. -/
def coerceCreditRow (r : Row) : Row := { r with credit := toNumericVal r.credit }

/-- `df.dropna(subset=['score', 'credit'])`. -/
def dropnaRows (df : List Row) : List Row :=
  df.filter (fun r => !isNan r.score && !isNan r.credit)

/-- Worker for `drop_duplicates(subset=['subject'], keep='first')`:
a row is kept iff its subject value was not seen earlier.  pandas
compares the column values themselves, and treats NaN cells as equal to
each other, which `DecidableEq PyVal` reproduces (`.nan = .nan`). -/
def dedupGo (seen : List PyVal) : List Row → List Row
  | [] => []
  | r :: rest =>
    if r.subject ∈ seen then dedupGo seen rest
    else r :: dedupGo (r.subject :: seen) rest

/-- `df.drop_duplicates(subset=['subject'], keep='first')`. -/
def dedupBySubject (df : List Row) : List Row := dedupGo [] df

/-- The pandas column `'score' in df.columns` test: a column exists iff
some input dict carries the key. -/
def hasScoreKey (l : List InputRecord) : Bool := l.any (fun r => r.score.isSome)

def hasCreditKey (l : List InputRecord) : Bool := l.any (fun r => r.credit.isSome)

def hasSubjectKey (l : List InputRecord) : Bool := l.any (fun r => r.subject.isSome)

/-- The DataFrame after both `pd.to_numeric` coercions. -/
def coercedRows (l : List InputRecord) : List Row :=
  ((l.map toRow).map coerceScoreRow).map coerceCreditRow

/-- The DataFrame after coercion and `dropna`. -/
def cleanRows (l : List InputRecord) : List Row :=
  dropnaRows (coercedRows l)

/-- The DataFrame after coercion, `dropna`, and the subject-guarded
`drop_duplicates` step (`if 'subject' in df.columns`). -/
def survivors (l : List InputRecord) : List Row :=
  if hasSubjectKey l then dedupBySubject (cleanRows l) else cleanRows l

def ratOf : PyVal → Rat
  | .num q => q
  | _ => 0

/-- `df['gpa_point'] = df['score'].apply(lambda x: (x - 50) / 10)`. -/
def gpaPoint (r : Row) : Rat := (ratOf r.score - 50) / 10

/-- `df['weighted_point'] = df['gpa_point'] * df['credit']`. -/
def weightedPoint (r : Row) : Rat := gpaPoint r * ratOf r.credit

/-- A surviving row with the two derived columns attached. -/
def mkResultRow (r : Row) : ResultRow :=
  { subject := r.subject, score := r.score, credit := r.credit,
    gpa_point := some (gpaPoint r), weighted_point := some (weightedPoint r) }

/-- A row returned on the paths that never add the derived columns. -/
def plainRow (r : Row) : ResultRow :=
  { subject := r.subject, score := r.score, credit := r.credit }

/-- Float division as the source would perform it: `none` marks the
non-finite value (NaN/inf) an unguarded zero division would produce. -/
def safeDiv (a b : Rat) : Option Rat := if b = 0 then none else some (a / b)

/-- Model of `calculate_gpa` (app.py).  The two `return 0.0, df` branches
for a missing column reproduce the `except KeyError` path: reading
`df['score']` fails before any coercion, while reading `df['credit']`
fails only after the score column was already coerced in place. -/
def calculate_gpa (data_list : List InputRecord) : Option Rat × List ResultRow :=
  if data_list.isEmpty then (some 0, [])
  else if hasScoreKey data_list then
    if hasCreditKey data_list then
      let df := survivors data_list
      if df.isEmpty then (some 0, [])
      else
        let rows := df.map mkResultRow
        let total_weighted_point := (df.map weightedPoint).sum
        let total_credit := (df.map (fun r => ratOf r.credit)).sum
        if total_credit = 0 then (some 0, rows)
        else (safeDiv total_weighted_point total_credit, rows)
    else (some 0, ((data_list.map toRow).map coerceScoreRow).map plainRow)
  else (some 0, (data_list.map toRow).map plainRow)

/-- A record both of whose `score` and `credit` cells coerce to numbers
(the records `dropna` keeps). -/
def validRec (r : InputRecord) : Bool :=
  isNum (toNumericVal (r.score.getD .nan)) && isNum (toNumericVal (r.credit.getD .nan))

/- ===============================================================
   JSON (the structured-data interchange used by the Extractor).
   Model of the fragment of Python `json.loads` this program exercises;
   the parser is fuelled (structural recursion) and rejects trailing
   non-whitespace, as `json.loads` does.
   =============================================================== -/

/-- A parsed data-interchange value. -/
inductive Json where
  | null
  | bool (b : Bool)
  | num (q : Rat)
  | str (s : Chars)
  | arr (elems : List Json)
  | obj (members : List (Chars × Json))

def isJsonWs (c : Char) : Bool := c = ' ' || c = '\t' || c = '\n' || c = '\r'

def skipWs (l : Chars) : Chars := l.dropWhile isJsonWs

def hexVal (c : Char) : Option Nat :=
  if isDigitC c then some (digitVal c)
  else if 'a' ≤ c && c ≤ 'f' then some (c.toNat - 87)
  else if 'A' ≤ c && c ≤ 'F' then some (c.toNat - 55)
  else none

/-- The character named by a simple JSON escape. -/
def escChar : Char → Option Char
  | '"' => some '"'
  | '\\' => some '\\'
  | '/' => some '/'
  | 'b' => some '\x08'
  | 'f' => some '\x0c'
  | 'n' => some '\n'
  | 'r' => some '\r'
  | 't' => some '\t'
  | _ => none

/-- Parse the body of a JSON string (after the opening quote), returning
the decoded characters and the input after the closing quote.  Raw
control characters are rejected, as in strict `json.loads`. -/
def parseStringBody : Chars → Option (Chars × Chars)
  | [] => none
  | '"' :: rest => some ([], rest)
  | '\\' :: 'u' :: a :: b :: c :: d :: rest =>
    (match hexVal a, hexVal b, hexVal c, hexVal d with
    | some ha, some hb, some hc, some hd =>
      (parseStringBody rest).map
        (fun p => (Char.ofNat (((ha * 16 + hb) * 16 + hc) * 16 + hd) :: p.1, p.2))
    | _, _, _, _ => none)
  | '\\' :: e :: rest =>
    (match escChar e with
    | some c => (parseStringBody rest).map (fun p => (c :: p.1, p.2))
    | none => none)
  | c :: rest =>
    if c.toNat < 32 then none
    else (parseStringBody rest).map (fun p => (c :: p.1, p.2))

/-- Parse a JSON number (optional minus, integer part without redundant
leading zeros, optional fraction, optional exponent), returning its exact
rational value and the remaining input. -/
def parseNumber (l : Chars) : Option (Rat × Chars) :=
  let (neg, l₁) : Bool × Chars := match l with | '-' :: r => (true, r) | _ => (false, l)
  let (iv, icnt, l₂) := digitSpan 0 0 l₁
  if icnt = 0 then none
  else if (match l₁ with | '0' :: c :: _ => isDigitC c | _ => false) then none
  else
    let hadDot : Bool := match l₂ with | '.' :: _ => true | _ => false
    let (fv, fcnt, l₃) : Nat × Nat × Chars :=
      match l₂ with | '.' :: r => digitSpan 0 0 r | _ => (0, 0, l₂)
    if hadDot ∧ fcnt = 0 then none
    else
      let l₄ := if hadDot then l₃ else l₂
      let mag : Rat := ((iv : Rat) + (fv : Rat) / (10 : Rat) ^ fcnt) * (if neg then -1 else 1)
      match l₄ with
      | [] => some (mag, [])
      | c :: r =>
        if c = 'e' || c = 'E' then
          let (esgn, r₁) : Bool × Chars :=
            match r with | '+' :: t => (false, t) | '-' :: t => (true, t) | _ => (false, r)
          let (ev, ecnt, r₂) := digitSpan 0 0 r₁
          if ecnt = 0 then none
          else some ((if esgn then mag / (10 : Rat) ^ ev else mag * (10 : Rat) ^ ev), r₂)
        else some (mag, c :: r)

/-- Request tag for the recursive-descent worker: parse a value, the
elements of a non-empty array, or the members of a non-empty object. -/
inductive PReq where
  | val (l : Chars)
  | elems (l : Chars)
  | members (l : Chars)

/-- Response tag of the worker, mirroring `PReq`. -/
inductive PRes where
  | val (v : Json) (r : Chars)
  | elems (xs : List Json) (r : Chars)
  | members (ms : List (Chars × Json)) (r : Chars)

/-- Fuelled recursive-descent worker for `json.loads`; one unit of fuel
per nested parse step, so a fuel of twice the input length plus a
constant always suffices. -/
def parseGo : Nat → PReq → Option PRes
  | 0, _ => none
  | fuel + 1, .val l =>
    (match skipWs l with
    | 'n' :: 'u' :: 'l' :: 'l' :: rest => some (.val .null rest)
    | 't' :: 'r' :: 'u' :: 'e' :: rest => some (.val (.bool true) rest)
    | 'f' :: 'a' :: 'l' :: 's' :: 'e' :: rest => some (.val (.bool false) rest)
    | '"' :: rest =>
      (match parseStringBody rest with
      | some (s, r) => some (.val (.str s) r)
      | none => none)
    | '[' :: rest =>
      (match skipWs rest with
      | ']' :: r => some (.val (.arr []) r)
      | _ =>
        match parseGo fuel (.elems rest) with
        | some (.elems xs r) => some (.val (.arr xs) r)
        | _ => none)
    | '\x7b' :: rest =>
      (match skipWs rest with
      | '\x7d' :: r => some (.val (.obj []) r)
      | _ =>
        match parseGo fuel (.members rest) with
        | some (.members ms r) => some (.val (.obj ms) r)
        | _ => none)
    | c :: rest =>
      if c = '-' || isDigitC c then
        match parseNumber (c :: rest) with
        | some (q, r) => some (.val (.num q) r)
        | none => none
      else none
    | [] => none)
  | fuel + 1, .elems l =>
    (match parseGo fuel (.val l) with
    | some (.val v r) =>
      (match skipWs r with
      | ',' :: r' =>
        (match parseGo fuel (.elems r') with
        | some (.elems xs r'') => some (.elems (v :: xs) r'')
        | _ => none)
      | ']' :: r' => some (.elems [v] r')
      | _ => none)
    | _ => none)
  | fuel + 1, .members l =>
    (match skipWs l with
    | '"' :: rest =>
      (match parseStringBody rest with
      | some (k, r) =>
        (match skipWs r with
        | ':' :: r' =>
          (match parseGo fuel (.val r') with
          | some (.val v r'') =>
            (match skipWs r'' with
            | ',' :: r₃ =>
              (match parseGo fuel (.members r₃) with
              | some (.members ms r₄) => some (.members ((k, v) :: ms) r₄)
              | _ => none)
            | '\x7d' :: r₃ => some (.members [(k, v)] r₃)
            | _ => none)
          | _ => none)
        | _ => none)
      | none => none)
    | _ => none)

/-- Model of `json.loads`: parse one value and require only whitespace
after it. -/
def jsonParse (l : Chars) : Option Json :=
  match parseGo (2 * l.length + 4) (.val l) with
  | some (.val v r) => if (skipWs r).isEmpty then some v else none
  | _ => none

/- ===============================================================
   Record Extractor (`parse_with_deepseek` in app.py).
   =============================================================== -/

/-- The unit the Extractor is expected to emit: an object with exactly
the fields `subject`, `score`, `credit`. -/
structure CandidateRecord where
  subject : Chars
  score : Rat
  credit : Rat
deriving DecidableEq

/-- Python dict field lookup on parsed object members (last key wins). -/
def objLookup (ms : List (Chars × Json)) (k : Chars) : Option Json :=
  (ms.reverse.find? (fun m => decide (m.1 = k))).map (fun m => m.2)

/-- Read one parsed value as a CandidateRecord: an object with exactly
the three expected fields. -/
def recordOfJson : Json → Option CandidateRecord
  | .obj ms =>
    if ms.length = 3 then
      match objLookup ms "subject".data, objLookup ms "score".data, objLookup ms "credit".data with
      | some (.str s), some (.num sc), some (.num cr) => some ⟨s, sc, cr⟩
      | _, _, _ => none
    else none
  | _ => none

/-- Read a parsed reply as the expected structure: a list of
CandidateRecords. -/
def recordsOfJson : Json → Option (List CandidateRecord)
  | .arr xs => xs.mapM recordOfJson
  | _ => none

/-- The reply cleaning performed before `json.loads`:
`content.strip()`, then `.replace("```json", "").replace("```", "").strip()`
(fence markers written with escaped backticks). -/
def cleanContent (raw : Chars) : Chars :=
  pyStrip (pyReplace (pyReplace (pyStrip raw) "\x60\x60\x60json".data []) "\x60\x60\x60".data [])

/-- Outcome of the single external chat-completion call: transport or
service failure, or the reply text. -/
abbrev ApiOutcome := Except Chars Chars

/-- What the Extractor returned, together with how many external
language-model calls it performed. -/
structure ExtractOut where
  data : Json
  apiCalls : Nat

/-- Model of `parse_with_deepseek` (app.py).  The empty/`"Error"` guard
returns before the client is used; afterwards the one external call is
made, and any transport failure or `json.loads` failure is caught by the
enclosing `try`, yielding `[]`.  A reply that parses is returned as-is
(the function never validates its shape).  The `api_key` argument only
configures the client and cannot change control flow, so it is not
modelled. -/
def parse_with_deepseek (ocr_text : Chars) (api : ApiOutcome) : ExtractOut :=
  if ocr_text.isEmpty || containsSub "Error".data ocr_text then ⟨.arr [], 0⟩
  else
    match api with
    | .error _ => ⟨.arr [], 1⟩
    | .ok raw =>
      match jsonParse (cleanContent raw) with
      | some v => ⟨v, 1⟩
      | none => ⟨.arr [], 1⟩

/- ===============================================================
   OCR Adapter (`perform_ocr`, app.py and ocr_helper.py versions).
   The engine boundary is an oracle describing how the pytesseract
   invocation(s) inside the `try` block turn out.
   =============================================================== -/

/-- Outcome of the pytesseract invocation(s) inside the `try` block:
both passes succeed, a `TesseractError` is raised, or some other
exception is raised (e.g. the engine executable cannot be found). -/
inductive TessOutcome where
  | ok (textA textB : Chars)
  | tessErr (msg : Chars)
  | otherErr (msg : Chars)

/-- The fixed language-pack error text of app.py's `perform_ocr`. -/
def langPackError : Chars := "Error: 请确保 Tesseract 安装了中文语言包 (chi_sim)。".data

/-- Model of `perform_ocr` (app.py): two recognition passes joined with
their source labels, or a sentinel-marked error string. -/
def perform_ocr (engine : TessOutcome) : Chars :=
  match engine with
  | .ok a b =>
    "--- Source A (Original) ---\n".data ++ a ++ "\n".data
      ++ "--- Source B (Inverted) ---\n".data ++ b
  | .tessErr msg =>
    if containsSub "lang".data msg then langPackError
    else "OCR Error: ".data ++ msg
  | .otherErr msg => "Error: 无法运行 Tesseract OCR。详细错误: ".data ++ msg

namespace OcrHelper

/-- The fixed language-pack error text of ocr_helper.py's `perform_ocr`. -/
def langPackError : Chars :=
  "Error: 请确保 Tesseract 安装了中文语言包 (chi_sim)。\n或者您可以尝试只识别数字和英文。".data

/-- Model of `perform_ocr` (ocr_helper.py): a single recognition pass,
or a sentinel-marked error string. -/
def perform_ocr (engine : TessOutcome) : Chars :=
  match engine with
  | .ok a _ => a
  | .tessErr msg =>
    if containsSub "lang".data msg then langPackError
    else "OCR Error: ".data ++ msg
  | .otherErr msg =>
    "Error: 无法运行 Tesseract OCR。请确保已安装 Tesseract 并配置路径。\n详细错误: ".data ++ msg

end OcrHelper

/- ===============================================================
   Result stage of the Streamlit flow (app.py, after all images).
   =============================================================== -/

/-- What the user is shown once every image has been processed. -/
inductive DisplayOutcome where
  | noValidData
  | gpaResult (final_gpa : Option Rat) (report : List ResultRow)
deriving DecidableEq

/-- Model of the `if not all_extracted_data: st.warning(...) else:
calculate_gpa + st.metric/st.dataframe` branch of the main flow. -/
def resultStage (all_extracted_data : List InputRecord) : DisplayOutcome :=
  if all_extracted_data.isEmpty then .noValidData
  else .gpaResult (calculate_gpa all_extracted_data).1 (calculate_gpa all_extracted_data).2

/-- Modelled from the claim's words, for comparison with the code's
deduplication: discard a record only when an earlier record carries the
same subject *string*; records without a subject string are never
treated as duplicates of one another. -/
def dedupByStringGo (seen : List Chars) : List Row → List Row
  | [] => []
  | r :: rest =>
    match r.subject with
    | .str s =>
      if s ∈ seen then dedupByStringGo seen rest
      else r :: dedupByStringGo (s :: seen) rest
    | _ => r :: dedupByStringGo seen rest

/-- Deduplication by exact subject-string equality, as the claim words it. -/
def dedupByString (df : List Row) : List Row := dedupByStringGo [] df

/- Concrete inputs used by the scenario parts, witnesses and
counterexamples below. -/

/-- End-to-end scenario 1 of the spec. -/
def recsScenario1 : List InputRecord :=
  [{ subject := some (.str "高等数学".data), score := some (.num 85), credit := some (.num 4) },
   { subject := some (.str "大学英语".data), score := some (.num 90), credit := some (.num 2) }]

/-- The spec's deduplication example: two records for subject `A`. -/
def recsDupA : List InputRecord :=
  [{ subject := some (.str "A".data), score := some (.num 80), credit := some (.num 2) },
   { subject := some (.str "A".data), score := some (.num 99), credit := some (.num 4) }]

/-- One subject-bearing record plus two valid records with no `subject`
key at all. -/
def recsNanSubject : List InputRecord :=
  [{ subject := some (.str "X".data), score := some (.num 70), credit := some (.num 1) },
   { score := some (.num 80), credit := some (.num 2) },
   { score := some (.num 90), credit := some (.num 3) }]

/-- Two valid records around one whose score is non-numeric text. -/
def recsMixedValid : List InputRecord :=
  [{ subject := some (.str "M1".data), score := some (.num 80), credit := some (.num 2) },
   { subject := some (.str "M2".data), score := some (.str "abc".data), credit := some (.num 3) },
   { subject := some (.str "M3".data), score := some (.num 90), credit := some (.num 1) }]

/-- The two valid records of `recsMixedValid` on their own. -/
def recsMixedValidOnly : List InputRecord :=
  [{ subject := some (.str "M1".data), score := some (.num 80), credit := some (.num 2) },
   { subject := some (.str "M3".data), score := some (.num 90), credit := some (.num 1) }]

/-- An invalid record that is the sole carrier of the `subject` key,
followed by two valid subject-less records. -/
def recsSoleSubjectCarrier : List InputRecord :=
  [{ subject := some (.str "A".data), score := some (.str "abc".data), credit := some (.num 2) },
   { score := some (.num 80), credit := some (.num 2) },
   { score := some (.num 90), credit := some (.num 3) }]

/-- A single zero-credit course. -/
def recsZeroCredit : List InputRecord :=
  [{ subject := some (.str "A".data), score := some (.num 80), credit := some (.num 0) }]

/-- A record set none of whose members carries a `score` key. -/
def recsNoScoreKey : List InputRecord :=
  [{ subject := some (.str "A".data), credit := some (.num 2) }]

/-- A single record with only a subject. -/
def recsNoScoreAtAll : List InputRecord :=
  [{ subject := some (.str "A".data) }]

/-- A record with a non-numeric score and no `credit` key anywhere. -/
def recsScoreNoCredit : List InputRecord :=
  [{ subject := some (.str "A".data), score := some (.str "abc".data) }]

/-- A record set whose only record fails numeric coercion. -/
def recsAllInvalid : List InputRecord :=
  [{ subject := some (.str "A".data), score := some (.str "abc".data), credit := some (.num 2) }]

/- ===============================================================
   Helper lemmas (shared across the claim theorems below).
   =============================================================== -/

theorem isPre_self (l : Chars) : isPre l l = true := by
  induction l with
  | nil => rfl
  | cons c cs ih => simp [isPre, ih]

theorem isPre_append_right (sub p m : Chars) (h : isPre sub p = true) :
    isPre sub (p ++ m) = true := by
  induction sub generalizing p with
  | nil => rfl
  | cons s ss ih =>
    cases p with
    | nil => simp [isPre] at h
    | cons c cs =>
      simp only [isPre, Bool.and_eq_true, decide_eq_true_eq] at h
      simp only [List.cons_append, isPre, Bool.and_eq_true, decide_eq_true_eq]
      exact ⟨h.1, ih cs h.2⟩

theorem containsSub_append_right (sub p m : Chars) (h : containsSub sub p = true) :
    containsSub sub (p ++ m) = true := by
  induction p with
  | nil =>
    simp only [containsSub] at h
    cases sub with
    | nil =>
      induction m with
      | nil => rfl
      | cons c cs ih => simp [containsSub, isPre, ih]
    | cons s ss => simp [isPre] at h
  | cons c cs ih =>
    simp only [containsSub, Bool.or_eq_true] at h
    rcases h with h | h
    · simp only [List.cons_append, containsSub, Bool.or_eq_true]
      exact Or.inl (isPre_append_right _ _ _ h)
    · simp only [List.cons_append, containsSub, Bool.or_eq_true]
      exact Or.inr (ih h)

theorem ne_of_append_take (k : Nat) (p q m : Chars) (hk : k ≤ p.length)
    (hne : p.take k ≠ q.take k) : p ++ m ≠ q := by
  intro he
  apply hne
  rw [← he, List.take_append_of_le_length hk]

theorem pyReplaceGo_nil (pat rep : Chars) (n : Nat) : pyReplaceGo pat rep n [] = [] := by
  cases n <;> rfl

/-- If the pattern's first character never occurs in the text, `replace`
is the identity. -/
theorem pyReplaceGo_eq_self (c₀ : Char) (ptail rep : Chars) :
    ∀ (n : Nat) (l : Chars), c₀ ∉ l → pyReplaceGo (c₀ :: ptail) rep n l = l := by
  intro n
  induction n with
  | zero => intro l _; cases l <;> rfl
  | succ n ih =>
    intro l hl
    cases l with
    | nil => rfl
    | cons c rest =>
      have hc : ¬(c₀ = c) := fun h => hl (h ▸ List.mem_cons_self c₀ rest)
      have hrest : c₀ ∉ rest := fun h => hl (List.mem_cons_of_mem c h)
      simp [pyReplaceGo, isPre, hc, ih rest hrest]

/-- `replace` passes over a stretch free of the pattern's first
character. -/
theorem pyReplaceGo_append_left (c₀ : Char) (ptail rep : Chars) :
    ∀ (s : Chars), c₀ ∉ s → ∀ (m : Nat) (t : Chars),
    pyReplaceGo (c₀ :: ptail) rep (s.length + m) (s ++ t) =
      s ++ pyReplaceGo (c₀ :: ptail) rep m t := by
  intro s
  induction s with
  | nil => intro _ m t; simp
  | cons c cs ih =>
    intro hs m t
    have hc : ¬(c₀ = c) := fun h => hs (h ▸ List.mem_cons_self c₀ cs)
    have hcs : c₀ ∉ cs := fun h => hs (List.mem_cons_of_mem c h)
    have hlen : (c :: cs).length + m = (cs.length + m) + 1 := by
      simp [List.length_cons]; omega
    have hcond : isPre (c₀ :: ptail) (c :: (cs ++ t)) = false := by
      simp [isPre, hc]
    rw [hlen, List.cons_append]
    simp only [pyReplaceGo, hcond, Bool.false_eq_true, if_false, List.cons_append]
    rw [ih hcs m t]

/-- `replace` fires when the text starts with the pattern. -/
theorem pyReplaceGo_head_match (pat rep : Chars) (hne : pat ≠ []) (n : Nat) (t : Chars) :
    pyReplaceGo pat rep (n + 1) (pat ++ t) = rep ++ pyReplaceGo pat rep n t := by
  cases pat with
  | nil => exact absurd rfl hne
  | cons p ps =>
    have hcond : isPre (p :: ps) ((p :: ps) ++ t) = true :=
      isPre_append_right _ _ _ (isPre_self (p :: ps))
    have hdrop : List.drop (p :: ps).length ((p :: ps) ++ t) = t := List.drop_left _ _
    simp only [List.cons_append] at hcond hdrop ⊢
    simp only [pyReplaceGo, hcond, if_true]
    rw [hdrop]

/-- If the pattern is a prefix of no suffix of the text, `replace` is the
identity (any fuel). -/
theorem pyReplaceGo_no_match (pat rep : Chars) :
    ∀ (n : Nat) (l : Chars), (∀ i, i ≤ l.length → isPre pat (l.drop i) = false) →
    pyReplaceGo pat rep n l = l := by
  intro n
  induction n with
  | zero => intro l _; cases l <;> rfl
  | succ n ih =>
    intro l h
    cases l with
    | nil => rfl
    | cons c rest =>
      have h0 : isPre pat (c :: rest) = false := by simpa using h 0 (by omega)
      simp only [pyReplaceGo, h0, Bool.false_eq_true, if_false]
      congr 1
      exact ih rest (fun i hi => by simpa using h (i + 1) (by simpa using hi))

/-- `strip` is the identity on text whose first and last characters are
not whitespace. -/
theorem pyStrip_eq_self (c d : Char) (mid : Chars) (hc : isPyWs c = false)
    (hd : isPyWs d = false) : pyStrip (c :: (mid ++ [d])) = c :: (mid ++ [d]) := by
  unfold pyStrip
  rw [List.dropWhile_cons_of_neg (by simp [hc])]
  rw [show (c :: (mid ++ [d])).reverse = d :: (mid.reverse ++ [c]) by simp]
  rw [List.dropWhile_cons_of_neg (by simp [hd])]
  simp

theorem toNumericVal_isNan_eq (v : PyVal) :
    isNan (toNumericVal v) = !isNum (toNumericVal v) := by
  cases v with
  | num q => simp [toNumericVal, isNan, isNum]
  | nan => simp [toNumericVal, isNan, isNum]
  | str s => cases h : pyFloatOfChars s <;> simp [toNumericVal, h, isNan, isNum]

theorem keep_coerced_eq_validRec (r : InputRecord) :
    (!isNan (coerceCreditRow (coerceScoreRow (toRow r))).score &&
     !isNan (coerceCreditRow (coerceScoreRow (toRow r))).credit) = validRec r := by
  simp [coerceScoreRow, coerceCreditRow, toRow, validRec, toNumericVal_isNan_eq, Bool.not_not]

theorem cleanRows_eq (l : List InputRecord) :
    cleanRows l =
      (l.filter validRec).map (fun r => coerceCreditRow (coerceScoreRow (toRow r))) := by
  unfold cleanRows coercedRows dropnaRows
  rw [List.map_map, List.map_map, List.filter_map]
  congr 1
  apply List.filter_congr
  intro r _
  simpa [Function.comp] using keep_coerced_eq_validRec r

theorem validRec_keys (r : InputRecord) (h : validRec r = true) :
    r.score.isSome = true ∧ r.credit.isSome = true := by
  cases hs : r.score <;> cases hc : r.credit <;>
    simp [validRec, hs, hc, toNumericVal, isNum] at h ⊢

theorem dedupGo_sublist (l : List Row) : ∀ seen, (dedupGo seen l).Sublist l := by
  induction l with
  | nil => intro seen; simp [dedupGo]
  | cons r rest ih =>
    intro seen
    by_cases h : r.subject ∈ seen
    · simp only [dedupGo, if_pos h]
      exact (ih seen).cons r
    · simp only [dedupGo, if_neg h]
      exact (ih _).cons₂ r

theorem mem_dedupGo {l : List Row} {seen : List PyVal} {r : Row}
    (h : r ∈ dedupGo seen l) : r.subject ∉ seen := by
  induction l generalizing seen with
  | nil => simp [dedupGo] at h
  | cons x rest ih =>
    by_cases hx : x.subject ∈ seen
    · rw [dedupGo, if_pos hx] at h
      exact ih h
    · rw [dedupGo, if_neg hx] at h
      rcases List.mem_cons.mp h with h | h
      · exact h ▸ hx
      · exact fun hs => ih h (List.mem_cons_of_mem _ hs)

theorem dedupGo_subject_nodup (l : List Row) :
    ∀ seen, ((dedupGo seen l).map (fun r => r.subject)).Nodup := by
  induction l with
  | nil => intro seen; simp [dedupGo]
  | cons x rest ih =>
    intro seen
    by_cases hx : x.subject ∈ seen
    · simp only [dedupGo, if_pos hx]
      exact ih seen
    · simp only [dedupGo, if_neg hx, List.map_cons, List.nodup_cons]
      refine ⟨?_, ih _⟩
      intro hmem
      obtain ⟨r, hr, hsub⟩ := List.mem_map.mp hmem
      exact mem_dedupGo hr (hsub ▸ List.mem_cons_self _ _)

theorem dedupGo_find? (s : PyVal) (l : List Row) : ∀ seen,
    (s ∈ seen → (dedupGo seen l).find? (fun r => decide (r.subject = s)) = none)
    ∧ (s ∉ seen → (dedupGo seen l).find? (fun r => decide (r.subject = s)) =
        l.find? (fun r => decide (r.subject = s))) := by
  induction l with
  | nil => intro seen; simp [dedupGo]
  | cons x rest ih =>
    intro seen
    constructor
    · intro hs
      by_cases hx : x.subject ∈ seen
      · rw [dedupGo, if_pos hx]
        exact (ih seen).1 hs
      · rw [dedupGo, if_neg hx]
        have hxs : ¬(x.subject = s) := fun h => hx (h ▸ hs)
        rw [List.find?_cons_of_neg _ (by simp [hxs])]
        exact (ih _).1 (List.mem_cons_of_mem _ hs)
    · intro hs
      by_cases hx : x.subject ∈ seen
      · rw [dedupGo, if_pos hx]
        have hxs : ¬(x.subject = s) := fun h => hs (h ▸ hx)
        rw [List.find?_cons_of_neg _ (by simp [hxs])]
        exact (ih seen).2 hs
      · rw [dedupGo, if_neg hx]
        by_cases hxs : x.subject = s
        · rw [List.find?_cons_of_pos _ (by simp [hxs]),
            List.find?_cons_of_pos _ (by simp [hxs])]
        · rw [List.find?_cons_of_neg _ (by simp [hxs]),
            List.find?_cons_of_neg _ (by simp [hxs])]
          refine (ih _).2 ?_
          intro hmem
          rcases List.mem_cons.mp hmem with h | h
          · exact hxs h.symm
          · exact hs h

theorem cleanRows_ne_nil_facts {l : List InputRecord} (h : cleanRows l ≠ []) :
    hasScoreKey l = true ∧ hasCreditKey l = true ∧ l ≠ [] := by
  rw [cleanRows_eq] at h
  have hf : l.filter validRec ≠ [] := by
    intro he
    exact h (by simp [he])
  obtain ⟨r, hr⟩ : ∃ r, r ∈ l.filter validRec := by
    cases hfv : l.filter validRec with
    | nil => exact absurd hfv hf
    | cons a t => exact ⟨a, hfv ▸ List.mem_cons_self a t⟩
  have hmem := List.mem_filter.mp hr
  have hkeys := validRec_keys r hmem.2
  refine ⟨List.any_eq_true.mpr ⟨r, hmem.1, hkeys.1⟩,
    List.any_eq_true.mpr ⟨r, hmem.1, hkeys.2⟩, ?_⟩
  intro he
  rw [he] at hmem
  exact absurd hmem.1 (List.not_mem_nil r)

theorem survivors_ne_nil_facts {l : List InputRecord} (h : survivors l ≠ []) :
    hasScoreKey l = true ∧ hasCreditKey l = true ∧ l ≠ [] := by
  apply cleanRows_ne_nil_facts
  intro he
  apply h
  unfold survivors
  rw [he]
  by_cases hs : hasSubjectKey l <;> simp [hs, dedupBySubject, dedupGo]

/-- Once both the `score` and `credit` columns exist, `calculate_gpa`
runs the full clean/dedup/derive pipeline. -/
theorem calculate_gpa_main_branch {l : List InputRecord} (h1 : hasScoreKey l = true)
    (h2 : hasCreditKey l = true) :
    calculate_gpa l =
      (if (survivors l).isEmpty then (some 0, [])
       else if ((survivors l).map (fun r => ratOf r.credit)).sum = 0 then
         (some 0, (survivors l).map mkResultRow)
       else
         (safeDiv ((survivors l).map weightedPoint).sum
            (((survivors l).map (fun r => ratOf r.credit)).sum),
          (survivors l).map mkResultRow)) := by
  have h3 : l ≠ [] := by
    intro he
    rw [he] at h1
    simp [hasScoreKey] at h1
  have hie : l.isEmpty = false := by
    cases l with
    | nil => exact absurd rfl h3
    | cons a t => rfl
  unfold calculate_gpa
  simp only [hie, h1, h2, Bool.false_eq_true, if_false, if_true]

/- ===============================================================
   Claim theorems.
   =============================================================== -/

/-- C1: whenever the cleaned record set's total credit is non-zero,
`calculate_gpa` derives each surviving record's `gpa_point` as
`(score - 50) / 10` with no clamping, `weighted_point` as
`gpa_point * credit`, and the final GPA as the sum of weighted points
divided by the sum of credits; in particular scenario 1
(高等数学 85/4.0, 大学英语 90/2.0) yields grade points 3.5 and 4.0,
weighted points 14.0 and 8.0, and final GPA 22.0 / 6.0. -/
theorem C1_gpa_formula :
    (∀ l : List InputRecord,
      ((survivors l).map (fun r => ratOf r.credit)).sum ≠ 0 →
      calculate_gpa l =
        (some ((((survivors l).map
              (fun r => (ratOf r.score - 50) / 10 * ratOf r.credit)).sum) /
            (((survivors l).map (fun r => ratOf r.credit)).sum)),
         (survivors l).map (fun r =>
           { subject := r.subject, score := r.score, credit := r.credit,
             gpa_point := some ((ratOf r.score - 50) / 10),
             weighted_point := some ((ratOf r.score - 50) / 10 * ratOf r.credit) })))
    ∧ calculate_gpa recsScenario1 =
        (some (22 / 6),
         [{ subject := .str "高等数学".data, score := .num 85, credit := .num 4,
            gpa_point := some (7 / 2), weighted_point := some 14 },
          { subject := .str "大学英语".data, score := .num 90, credit := .num 2,
            gpa_point := some 4, weighted_point := some 8 }]) := by
  constructor
  · intro l h
    have hne : survivors l ≠ [] := by
      intro he
      rw [he] at h
      simp at h
    obtain ⟨h1, h2, h3⟩ := survivors_ne_nil_facts hne
    rw [calculate_gpa_main_branch h1 h2]
    have hie : (survivors l).isEmpty = false := by
      cases hs : survivors l with
      | nil => exact absurd hs hne
      | cons a t => rfl
    rw [hie]
    simp only [Bool.false_eq_true, if_false, if_neg h]
    unfold safeDiv
    rw [if_neg h]
    rw [show weightedPoint = fun r => (ratOf r.score - 50) / 10 * ratOf r.credit from
      funext fun r => by simp [weightedPoint, gpaPoint]]
    simp [mkResultRow, gpaPoint, weightedPoint]
  · with_unfolding_all rfl

/-- C1 witness: scenario 1 satisfies the non-zero-credit hypothesis, and
the theorem applies to it. -/
theorem C1_gpa_formula_witness :
    ((survivors recsScenario1).map (fun r => ratOf r.credit)).sum ≠ 0 ∧
    calculate_gpa recsScenario1 =
      (some ((((survivors recsScenario1).map
            (fun r => (ratOf r.score - 50) / 10 * ratOf r.credit)).sum) /
          (((survivors recsScenario1).map (fun r => ratOf r.credit)).sum)),
       (survivors recsScenario1).map (fun r =>
         { subject := r.subject, score := r.score, credit := r.credit,
           gpa_point := some ((ratOf r.score - 50) / 10),
           weighted_point := some ((ratOf r.score - 50) / 10 * ratOf r.credit) })) := by
  have h : ((survivors recsScenario1).map (fun r => ratOf r.credit)).sum ≠ 0 := by
    with_unfolding_all decide
  exact ⟨h, C1_gpa_formula.1 recsScenario1 h⟩

/-- C2 (amended): the final GPA is always a finite value: the division is
guarded, so it never produces NaN/inf; empty input yields `(0.0, empty)`;
when the coercion step is reached (both columns exist) and no record
survives cleaning, the result is `(0.0, empty)`; and whenever the
surviving credits sum to 0 the final GPA is 0.0. -/
theorem C2_finite_guarded : ∀ l : List InputRecord,
    (calculate_gpa l).1.isSome = true
    ∧ (l = [] → calculate_gpa l = (some 0, []))
    ∧ (hasScoreKey l = true → hasCreditKey l = true → survivors l = [] →
        calculate_gpa l = (some 0, []))
    ∧ (((survivors l).map (fun r => ratOf r.credit)).sum = 0 →
        (calculate_gpa l).1 = some 0) := by
  intro l
  by_cases hl : l = []
  · subst hl
    refine ⟨rfl, fun _ => rfl, fun h1 _ _ => ?_, fun _ => rfl⟩
    simp [hasScoreKey] at h1
  · have hie : l.isEmpty = false := by
      cases l with
      | nil => exact absurd rfl hl
      | cons a t => rfl
    refine ⟨?_, fun he => absurd he hl, ?_, ?_⟩
    · by_cases h1 : hasScoreKey l
      · by_cases h2 : hasCreditKey l
        · rw [calculate_gpa_main_branch h1 h2]
          by_cases he : (survivors l).isEmpty
          · simp [he]
          · simp only [Bool.not_eq_true] at he
            rw [he]
            simp only [Bool.false_eq_true, if_false]
            by_cases hc : ((survivors l).map (fun r => ratOf r.credit)).sum = 0
            · simp [hc]
            · simp [hc, safeDiv]
        · simp only [Bool.not_eq_true] at h2
          unfold calculate_gpa
          simp [hie, h1, h2]
      · simp only [Bool.not_eq_true] at h1
        unfold calculate_gpa
        simp [hie, h1]
    · intro h1 h2 hsurv
      rw [calculate_gpa_main_branch h1 h2, hsurv]
      rfl
    · intro hc
      by_cases h1 : hasScoreKey l
      · by_cases h2 : hasCreditKey l
        · rw [calculate_gpa_main_branch h1 h2]
          by_cases he : (survivors l).isEmpty
          · simp [he]
          · simp only [Bool.not_eq_true] at he
            rw [he]
            simp [hc]
        · simp only [Bool.not_eq_true] at h2
          unfold calculate_gpa
          simp [hie, h1, h2]
      · simp only [Bool.not_eq_true] at h1
        unfold calculate_gpa
        simp [hie, h1]

/-- C2 counterexample to the claim as stated: on an input whose records
never carry a `score` key, nothing survives cleaning, yet the code
returns the original rows rather than an empty report (finalGpa is
still 0.0). -/
theorem C2_no_survivors_counter :
    survivors recsNoScoreAtAll = [] ∧
    calculate_gpa recsNoScoreAtAll =
      (some 0, [{ subject := .str "A".data, score := .nan, credit := .nan }]) ∧
    (calculate_gpa recsNoScoreAtAll).2 ≠ [] := by
  with_unfolding_all decide

/-- C2 witness: concrete instances of the amended clauses, via the
theorem. -/
theorem C2_finite_guarded_witness :
    (calculate_gpa recsZeroCredit).1.isSome = true ∧
    calculate_gpa ([] : List InputRecord) = (some 0, []) ∧
    calculate_gpa recsAllInvalid = (some 0, []) ∧
    (calculate_gpa recsZeroCredit).1 = some 0 := by
  refine ⟨(C2_finite_guarded recsZeroCredit).1,
    (C2_finite_guarded []).2.1 rfl,
    (C2_finite_guarded recsAllInvalid).2.2.1 (by with_unfolding_all decide)
      (by with_unfolding_all decide) (by with_unfolding_all rfl),
    (C2_finite_guarded recsZeroCredit).2.2.2 (by with_unfolding_all decide)⟩

/-- C9: if the pooled extraction result is empty, the main flow reports
"no valid data" instead of displaying a GPA; a non-empty pool is
displayed as a GPA result, and the two outcomes are distinct, so a
legitimate 0.0 GPA from a zero-credit course is distinguishable from the
no-data report. -/
theorem C9_no_valid_data :
    resultStage [] = .noValidData
    ∧ (∀ l : List InputRecord, l ≠ [] →
        resultStage l = .gpaResult (calculate_gpa l).1 (calculate_gpa l).2)
    ∧ (∀ (g : Option Rat) (rep : List ResultRow),
        DisplayOutcome.noValidData ≠ .gpaResult g rep)
    ∧ resultStage recsZeroCredit =
        .gpaResult (some 0)
          [{ subject := .str "A".data, score := .num 80, credit := .num 0,
             gpa_point := some 3, weighted_point := some 0 }] := by
  refine ⟨rfl, ?_, ?_, ?_⟩
  · intro l hl
    have hie : l.isEmpty = false := by
      cases l with
      | nil => exact absurd rfl hl
      | cons a t => rfl
    unfold resultStage
    simp [hie]
  · intro g rep
    simp
  · with_unfolding_all rfl

/-- C9 witness: the theorem applied to the concrete zero-credit pool. -/
theorem C9_no_valid_data_witness :
    recsZeroCredit ≠ [] ∧
    resultStage recsZeroCredit =
      .gpaResult (calculate_gpa recsZeroCredit).1 (calculate_gpa recsZeroCredit).2 := by
  have h : recsZeroCredit ≠ [] := by with_unfolding_all decide
  exact ⟨h, C9_no_valid_data.2.1 recsZeroCredit h⟩

/-- C10 (amended): on a non-empty input with no `score` key anywhere the
function returns finalGpa 0.0 with the rows untouched (no coercion, no
dedup, no derived columns); when a `score` column exists but no record
carries `credit`, the returned rows have had their score column
numerically coerced (the `KeyError` is raised only after the first
coercion), still with no dedup and no derived columns. -/
theorem C10_missing_column : ∀ l : List InputRecord, l ≠ [] →
    (hasScoreKey l = false → calculate_gpa l = (some 0, (l.map toRow).map plainRow))
    ∧ (hasScoreKey l = true → hasCreditKey l = false →
        calculate_gpa l = (some 0, ((l.map toRow).map coerceScoreRow).map plainRow)) := by
  intro l hl
  have hie : l.isEmpty = false := by
    cases l with
    | nil => exact absurd rfl hl
    | cons a t => rfl
  constructor
  · intro h1
    unfold calculate_gpa
    simp [hie, h1]
  · intro h1 h2
    unfold calculate_gpa
    simp [hie, h1, h2]

/-- C10 counterexample to the claim as stated: with a `score` column but
no `credit` key anywhere, the returned report is *not* the input
unchanged — the non-numeric score "abc" has been coerced to NaN. -/
theorem C10_coercion_counter :
    calculate_gpa recsScoreNoCredit =
      (some 0, [{ subject := .str "A".data, score := .nan, credit := .nan }]) ∧
    (recsScoreNoCredit.map toRow).map plainRow =
      [{ subject := .str "A".data, score := .str "abc".data, credit := .nan }] ∧
    (calculate_gpa recsScoreNoCredit).2 ≠ (recsScoreNoCredit.map toRow).map plainRow := by
  with_unfolding_all decide

/-- C10 witness: the theorem applied to a concrete input with no `score`
key. -/
theorem C10_missing_column_witness :
    recsNoScoreKey ≠ [] ∧ hasScoreKey recsNoScoreKey = false ∧
    calculate_gpa recsNoScoreKey = (some 0, (recsNoScoreKey.map toRow).map plainRow) := by
  have hl : recsNoScoreKey ≠ [] := by with_unfolding_all decide
  have h1 : hasScoreKey recsNoScoreKey = false := by with_unfolding_all decide
  exact ⟨hl, h1, (C10_missing_column recsNoScoreKey hl).1 h1⟩

/-- C3 (amended): the aggregation deduplicates by exact equality of the
subject *column value*, keeping the first occurrence in input order: for
subject-bearing records this is exact string equality, but rows missing
`subject` all share the single missing (NaN) value and are collapsed to
the first such row; the report lists the surviving rows with their
derived fields, in input order; the spec's `A`-duplicate example keeps
only the first record. -/
theorem C3_dedup :
    (∀ l : List InputRecord, hasScoreKey l = true → hasCreditKey l = true →
        (calculate_gpa l).2 = (survivors l).map mkResultRow)
    ∧ (∀ l : List InputRecord, hasSubjectKey l = true →
        survivors l = dedupBySubject (cleanRows l))
    ∧ (∀ df : List Row, (dedupBySubject df).Sublist df)
    ∧ (∀ df : List Row, ((dedupBySubject df).map (fun r => r.subject)).Nodup)
    ∧ (∀ (df : List Row) (s : PyVal),
        (dedupBySubject df).find? (fun r => decide (r.subject = s)) =
          df.find? (fun r => decide (r.subject = s)))
    ∧ calculate_gpa recsDupA =
        (some 3,
         [{ subject := .str "A".data, score := .num 80, credit := .num 2,
            gpa_point := some 3, weighted_point := some 6 }]) := by
  refine ⟨?_, ?_, ?_, ?_, ?_, ?_⟩
  · intro l h1 h2
    rw [calculate_gpa_main_branch h1 h2]
    by_cases he : (survivors l).isEmpty
    · have hnil : survivors l = [] := by
        cases hs : survivors l with
        | nil => rfl
        | cons a t => rw [hs] at he; simp [List.isEmpty] at he
      simp [he, hnil]
    · simp only [Bool.not_eq_true] at he
      rw [he]
      simp only [Bool.false_eq_true, if_false]
      by_cases hc : ((survivors l).map (fun r => ratOf r.credit)).sum = 0 <;> simp [hc]
  · intro l hs
    unfold survivors
    simp [hs]
  · intro df
    exact dedupGo_sublist df []
  · intro df
    exact dedupGo_subject_nodup df []
  · intro df s
    exact (dedupGo_find? s df []).2 (by simp)
  · with_unfolding_all rfl

/-- C3 counterexample to the claim as stated: with one subject-bearing
record and two valid subject-less records, the second subject-less record
is discarded although no earlier record has an equal subject string, so
dedup-by-exact-subject-string would keep 3 rows while the code keeps 2. -/
theorem C3_nan_subject_counter :
    (calculate_gpa recsNanSubject).2.length = 2 ∧
    (dedupByString (cleanRows recsNanSubject)).length = 3 ∧
    (calculate_gpa recsNanSubject).2 ≠
      (dedupByString (cleanRows recsNanSubject)).map mkResultRow := by
  with_unfolding_all decide

/-- C3 witness: the theorem's quantified parts applied to the spec's
`A`-duplicate example. -/
theorem C3_dedup_witness :
    hasScoreKey recsDupA = true ∧ hasCreditKey recsDupA = true ∧
    (calculate_gpa recsDupA).2 = (survivors recsDupA).map mkResultRow ∧
    hasSubjectKey recsDupA = true ∧
    survivors recsDupA = dedupBySubject (cleanRows recsDupA) := by
  refine ⟨by with_unfolding_all decide, by with_unfolding_all decide,
    C3_dedup.1 recsDupA (by with_unfolding_all decide) (by with_unfolding_all decide),
    by with_unfolding_all decide,
    C3_dedup.2.1 recsDupA (by with_unfolding_all decide)⟩

/-- C4 (amended): a record whose score or credit fails numeric coercion
is dropped, and — provided the dropped records are not the sole carriers
of the `subject` key (the column set is unchanged by the removal) — the
remaining valid records aggregate exactly as if the dropped records were
absent; e.g. a record with score "abc" is dropped while the other
records aggregate unchanged. -/
theorem C4_invalid_dropped :
    (∀ l : List InputRecord, hasScoreKey l = true → hasCreditKey l = true →
      hasSubjectKey l = hasSubjectKey (l.filter validRec) →
      calculate_gpa l = calculate_gpa (l.filter validRec))
    ∧ validRec (InputRecord.mk (some (.str "M2".data)) (some (.str "abc".data))
        (some (.num 3))) = false
    ∧ recsMixedValid.filter validRec = recsMixedValidOnly
    ∧ calculate_gpa recsMixedValid = calculate_gpa recsMixedValidOnly := by
  refine ⟨?_, ?_, ?_, ?_⟩
  · intro l h1 h2 hsub
    by_cases hf : l.filter validRec = []
    · have hclean : cleanRows l = [] := by
        rw [cleanRows_eq, hf]
        rfl
      have hsurv : survivors l = [] := by
        unfold survivors
        rw [hclean]
        by_cases hs : hasSubjectKey l <;> simp [hs, dedupBySubject, dedupGo]
      rw [calculate_gpa_main_branch h1 h2, hsurv, hf]
      rfl
    · obtain ⟨r, hr⟩ : ∃ r, r ∈ l.filter validRec := by
        cases hfv : l.filter validRec with
        | nil => exact absurd hfv hf
        | cons a t => exact ⟨a, hfv ▸ List.mem_cons_self a t⟩
      have hmem := List.mem_filter.mp hr
      have hkeys := validRec_keys r hmem.2
      have h1' : hasScoreKey (l.filter validRec) = true :=
        List.any_eq_true.mpr ⟨r, hr, hkeys.1⟩
      have h2' : hasCreditKey (l.filter validRec) = true :=
        List.any_eq_true.mpr ⟨r, hr, hkeys.2⟩
      have hcleq : cleanRows l = cleanRows (l.filter validRec) := by
        rw [cleanRows_eq l, cleanRows_eq (l.filter validRec), List.filter_filter]
        simp
      have hsurv : survivors l = survivors (l.filter validRec) := by
        unfold survivors
        rw [hcleq, hsub]
      rw [calculate_gpa_main_branch h1 h2, calculate_gpa_main_branch h1' h2', hsurv]
  · with_unfolding_all decide
  · with_unfolding_all decide
  · with_unfolding_all rfl

/-- C4 counterexample to the claim as stated: when the coercion-failing
record is the sole carrier of the `subject` key, its removal changes the
result — with it present the two valid subject-less records are
collapsed by the NaN dedup (GPA 3), without it no dedup happens
(GPA 18/5). -/
theorem C4_sole_subject_counter :
    (calculate_gpa recsSoleSubjectCarrier).1 = some 3 ∧
    (calculate_gpa (recsSoleSubjectCarrier.filter validRec)).1 = some (18 / 5) ∧
    calculate_gpa recsSoleSubjectCarrier ≠
      calculate_gpa (recsSoleSubjectCarrier.filter validRec) := by
  with_unfolding_all decide

/-- C4 witness: the theorem applied to the concrete "abc" example. -/
theorem C4_invalid_dropped_witness :
    hasScoreKey recsMixedValid = true ∧ hasCreditKey recsMixedValid = true ∧
    hasSubjectKey recsMixedValid = hasSubjectKey (recsMixedValid.filter validRec) ∧
    calculate_gpa recsMixedValid = calculate_gpa (recsMixedValid.filter validRec) := by
  refine ⟨by with_unfolding_all decide, by with_unfolding_all decide,
    by with_unfolding_all decide,
    C4_invalid_dropped.1 recsMixedValid (by with_unfolding_all decide)
      (by with_unfolding_all decide) (by with_unfolding_all decide)⟩

/-- If the input text carries the `"Error"` marker (or is empty), the
Extractor returns before making any external call. -/
theorem parse_guard_fires {text : Chars} (api : ApiOutcome)
    (h : containsSub "Error".data text = true) :
    parse_with_deepseek text api = ⟨.arr [], 0⟩ := by
  unfold parse_with_deepseek
  simp [h]

/-- C5: on empty raw text, or raw text carrying the OCR error marker —
in particular on every error string `perform_ocr` can produce — the
Extractor returns an empty sequence immediately, with zero external
language-model calls made. -/
theorem C5_guard_no_call : ∀ (text : Chars) (api : ApiOutcome),
    (text = [] ∨ containsSub "Error".data text = true →
      parse_with_deepseek text api = ⟨.arr [], 0⟩)
    ∧ (∀ msg, parse_with_deepseek (perform_ocr (.tessErr msg)) api = ⟨.arr [], 0⟩)
    ∧ (∀ msg, parse_with_deepseek (perform_ocr (.otherErr msg)) api = ⟨.arr [], 0⟩) := by
  intro text api
  refine ⟨?_, ?_, ?_⟩
  · intro h
    rcases h with h | h
    · subst h
      rfl
    · exact parse_guard_fires api h
  · intro msg
    apply parse_guard_fires
    unfold perform_ocr
    by_cases hl : containsSub "lang".data msg
    · simp only [hl, if_true]
      with_unfolding_all decide
    · simp only [hl, Bool.false_eq_true, if_false]
      exact containsSub_append_right _ _ _ (by with_unfolding_all decide)
  · intro msg
    apply parse_guard_fires
    unfold perform_ocr
    exact containsSub_append_right _ _ _ (by with_unfolding_all decide)

/-- C5 witness: the theorem applied to a concrete marker-carrying text. -/
theorem C5_guard_no_call_witness :
    containsSub "Error".data "Error: x".data = true ∧
    parse_with_deepseek "Error: x".data (.ok "[1]".data) = ⟨.arr [], 0⟩ := by
  have h : containsSub "Error".data "Error: x".data = true := by with_unfolding_all decide
  exact ⟨h, (C5_guard_no_call "Error: x".data (.ok "[1]".data)).1 (Or.inr h)⟩

/-- C6 (amended): for every raw text, a transport/service failure or a
reply on which the data-interchange parse fails yields an empty
sequence; the model is a total function, so no exception crosses the
Extractor boundary.  (A reply that parses as data-interchange is
returned as-is, without validation of its shape — see the
counterexample.) -/
theorem C6_failures_swallowed : ∀ text : Chars,
    (∀ e, (parse_with_deepseek text (.error e)).data = .arr [])
    ∧ (∀ raw, jsonParse (cleanContent raw) = none →
        (parse_with_deepseek text (.ok raw)).data = .arr []) := by
  intro text
  constructor
  · intro e
    unfold parse_with_deepseek
    by_cases hg : (text.isEmpty || containsSub "Error".data text) = true <;> simp [hg]
  · intro raw hraw
    unfold parse_with_deepseek
    by_cases hg : (text.isEmpty || containsSub "Error".data text) = true <;>
      simp [hg, hraw]

/-- C6 counterexample to the claim as stated: the reply `42` is not the
expected structure (a list of records), yet the Extractor returns the
parsed number as-is, not an empty sequence. -/
theorem C6_shape_counter :
    recordsOfJson (Json.num 42) = none ∧
    (parse_with_deepseek "t".data (.ok "42".data)).data = Json.num 42 ∧
    Json.num 42 ≠ Json.arr [] := by
  refine ⟨rfl, by with_unfolding_all rfl, by simp⟩

/-- C6 witness: the theorem applied to a prose-only reply and a
transport failure. -/
theorem C6_failures_swallowed_witness :
    jsonParse (cleanContent "not a json reply".data) = none ∧
    (parse_with_deepseek "t".data (.ok "not a json reply".data)).data = .arr [] ∧
    (parse_with_deepseek "t".data (.error "boom".data)).data = .arr [] := by
  have h : jsonParse (cleanContent "not a json reply".data) = none := by
    with_unfolding_all rfl
  exact ⟨h, (C6_failures_swallowed "t".data).2 _ h,
    (C6_failures_swallowed "t".data).1 "boom".data⟩

theorem fj_chars : "\x60\x60\x60json".data =
    '\x60' :: '\x60' :: '\x60' :: 'j' :: 's' :: 'o' :: 'n' :: [] := by
  with_unfolding_all rfl

theorem f_chars : "\x60\x60\x60".data = '\x60' :: '\x60' :: '\x60' :: [] := by
  with_unfolding_all rfl

theorem pyStrip_fenced (s : Chars) :
    pyStrip ("\x60\x60\x60json".data ++ s ++ "\x60\x60\x60".data) =
      "\x60\x60\x60json".data ++ s ++ "\x60\x60\x60".data := by
  have h : "\x60\x60\x60json".data ++ s ++ "\x60\x60\x60".data =
      '\x60' :: ((('\x60' :: '\x60' :: 'j' :: 's' :: 'o' :: 'n' :: []) ++ s ++
        ['\x60', '\x60']) ++ ['\x60']) := by
    rw [fj_chars, f_chars]
    simp
  rw [h]
  exact pyStrip_eq_self _ _ _ (by decide) (by decide)

/-- Cleaning a reply wrapped in code-fence markers, whose body contains
no backtick, yields exactly the body. -/
theorem cleanContent_fenced (s : Chars) (hbt : '\x60' ∉ s) (hstrip : pyStrip s = s) :
    cleanContent ("\x60\x60\x60json".data ++ s ++ "\x60\x60\x60".data) = s := by
  unfold cleanContent
  rw [pyStrip_fenced]
  have e1 : pyReplace ("\x60\x60\x60json".data ++ s ++ "\x60\x60\x60".data)
      "\x60\x60\x60json".data [] = s ++ "\x60\x60\x60".data := by
    unfold pyReplace
    rw [fj_chars, f_chars]
    have hlen : (('\x60' :: '\x60' :: '\x60' :: 'j' :: 's' :: 'o' :: 'n' :: []) ++ s ++
        ('\x60' :: '\x60' :: '\x60' :: [])).length = (s.length + 9) + 1 := by
      simp
    rw [hlen, List.append_assoc]
    rw [pyReplaceGo_head_match _ _ (by simp) _ _]
    rw [List.nil_append]
    rw [pyReplaceGo_append_left '\x60' _ _ s hbt 9 _]
    rw [show pyReplaceGo ('\x60' :: '\x60' :: '\x60' :: 'j' :: 's' :: 'o' :: 'n' :: []) []
        9 ('\x60' :: '\x60' :: '\x60' :: []) = '\x60' :: '\x60' :: '\x60' :: [] from by decide]
  have e2 : pyReplace (s ++ "\x60\x60\x60".data) "\x60\x60\x60".data [] = s := by
    unfold pyReplace
    rw [f_chars]
    have hlen : (s ++ ('\x60' :: '\x60' :: '\x60' :: [])).length = s.length + 3 := by
      simp
    rw [hlen]
    rw [pyReplaceGo_append_left '\x60' _ _ s hbt 3 _]
    rw [show pyReplaceGo ('\x60' :: '\x60' :: '\x60' :: []) [] 3
        ('\x60' :: '\x60' :: '\x60' :: []) = [] from by decide]
    exact List.append_nil s
  rw [e1, e2, hstrip]

/-- Cleaning a backtick-free, already-stripped reply leaves it unchanged. -/
theorem cleanContent_no_fence (s : Chars) (hbt : '\x60' ∉ s) (hstrip : pyStrip s = s) :
    cleanContent s = s := by
  unfold cleanContent pyReplace
  rw [hstrip, fj_chars, pyReplaceGo_eq_self _ _ _ _ _ hbt, f_chars,
    pyReplaceGo_eq_self _ _ _ _ _ hbt, hstrip]

set_option maxHeartbeats 3200000 in
/-- C7 (amended): for every well-formed reply containing no backtick
characters in its body, with or without enclosing code-fence markers,
the response handling strips the markers and parses the remainder to
exactly the reply's own parse — values unchanged; in particular the
reply `[{"subject":"X","score":70,"credit":1.0}]` (fenced or not) yields
exactly one CandidateRecord with those three field values.  (Replies
whose *values* contain fence-marker text are corrupted — see the
counterexample.) -/
theorem C7_roundtrip :
    (∀ (text s : Chars) (v : Json), text ≠ [] →
      containsSub "Error".data text = false →
      '\x60' ∉ s → pyStrip s = s → jsonParse s = some v →
      (parse_with_deepseek text
          (.ok ("\x60\x60\x60json".data ++ s ++ "\x60\x60\x60".data))).data = v
      ∧ (parse_with_deepseek text (.ok s)).data = v)
    ∧ recordsOfJson (parse_with_deepseek "t".data
        (.ok "[\x7b\"subject\":\"X\",\"score\":70,\"credit\":1.0\x7d]".data)).data =
        some [⟨"X".data, 70, 1⟩]
    ∧ recordsOfJson (parse_with_deepseek "t".data
        (.ok ("\x60\x60\x60json\n[\x7b\"subject\":\"X\",\"score\":70,\"credit\":1.0\x7d]\n\x60\x60\x60".data))).data =
        some [⟨"X".data, 70, 1⟩] := by
  refine ⟨?_, by with_unfolding_all rfl, by with_unfolding_all rfl⟩
  intro text s v htne hterr hbt hstrip hparse
  have hguard : (text.isEmpty || containsSub "Error".data text) = false := by
    cases text with
    | nil => exact absurd rfl htne
    | cons a t => simp [hterr, List.isEmpty]
  constructor
  · unfold parse_with_deepseek
    simp only [hguard, Bool.false_eq_true, if_false]
    rw [cleanContent_fenced s hbt hstrip, hparse]
  · unfold parse_with_deepseek
    simp only [hguard, Bool.false_eq_true, if_false]
    rw [cleanContent_no_fence s hbt hstrip, hparse]

/-- C7 counterexample to the claim as stated: a well-formed reply whose
subject value contains a fence marker is corrupted by the cleaning — the
reply parses to subject `a```b`, but the Extractor returns subject `ab`. -/
theorem C7_interior_fence_counter :
    ((jsonParse "[\x7b\"subject\":\"a\x60\x60\x60b\",\"score\":70,\"credit\":1.0\x7d]".data).bind
        recordsOfJson) = some [⟨"a\x60\x60\x60b".data, 70, 1⟩] ∧
    recordsOfJson (parse_with_deepseek "t".data
        (.ok "[\x7b\"subject\":\"a\x60\x60\x60b\",\"score\":70,\"credit\":1.0\x7d]".data)).data =
      some [⟨"ab".data, 70, 1⟩] ∧
    ([⟨"ab".data, 70, 1⟩] : List CandidateRecord) ≠ [⟨"a\x60\x60\x60b".data, 70, 1⟩] := by
  refine ⟨by with_unfolding_all rfl, by with_unfolding_all rfl, by with_unfolding_all decide⟩

/-- C7 witness: the theorem applied to the concrete well-formed reply. -/
theorem C7_roundtrip_witness :
    "t".data ≠ [] ∧
    containsSub "Error".data "t".data = false ∧
    '\x60' ∉ "[\x7b\"subject\":\"X\",\"score\":70,\"credit\":1.0\x7d]".data ∧
    pyStrip "[\x7b\"subject\":\"X\",\"score\":70,\"credit\":1.0\x7d]".data =
      "[\x7b\"subject\":\"X\",\"score\":70,\"credit\":1.0\x7d]".data ∧
    jsonParse "[\x7b\"subject\":\"X\",\"score\":70,\"credit\":1.0\x7d]".data =
      some (.arr [.obj [("subject".data, .str "X".data), ("score".data, .num 70),
        ("credit".data, .num 1)]]) ∧
    ((parse_with_deepseek "t".data
        (.ok ("\x60\x60\x60json".data ++
          "[\x7b\"subject\":\"X\",\"score\":70,\"credit\":1.0\x7d]".data ++
          "\x60\x60\x60".data))).data =
        .arr [.obj [("subject".data, .str "X".data), ("score".data, .num 70),
          ("credit".data, .num 1)]]
      ∧ (parse_with_deepseek "t".data
          (.ok "[\x7b\"subject\":\"X\",\"score\":70,\"credit\":1.0\x7d]".data)).data =
        .arr [.obj [("subject".data, .str "X".data), ("score".data, .num 70),
          ("credit".data, .num 1)]]) := by
  have h1 : "t".data ≠ [] := by with_unfolding_all decide
  have h2 : containsSub "Error".data "t".data = false := by with_unfolding_all decide
  have h3 : '\x60' ∉ "[\x7b\"subject\":\"X\",\"score\":70,\"credit\":1.0\x7d]".data := by
    with_unfolding_all decide
  have h4 : pyStrip "[\x7b\"subject\":\"X\",\"score\":70,\"credit\":1.0\x7d]".data =
      "[\x7b\"subject\":\"X\",\"score\":70,\"credit\":1.0\x7d]".data := by
    with_unfolding_all rfl
  have h5 : jsonParse "[\x7b\"subject\":\"X\",\"score\":70,\"credit\":1.0\x7d]".data =
      some (.arr [.obj [("subject".data, .str "X".data), ("score".data, .num 70),
        ("credit".data, .num 1)]]) := by
    with_unfolding_all rfl
  exact ⟨h1, h2, h3, h4, h5, C7_roundtrip.1 _ _ _ h1 h2 h3 h4 h5⟩

/-- C8: whenever the pytesseract invocation fails (a `TesseractError`,
or any other exception such as the engine executable not being found),
`perform_ocr` returns a text carrying the `"Error"` sentinel instead of
raising; a missing-language-pack failure (a `TesseractError` whose
message mentions `lang`) produces the fixed chi_sim message, which
differs from every generic-failure text, so the two are distinguishable.
Both the app.py and the ocr_helper.py versions satisfy this. -/
theorem C8_error_sentinels : ∀ msg : Chars,
    containsSub "Error".data (perform_ocr (.tessErr msg)) = true
    ∧ containsSub "Error".data (perform_ocr (.otherErr msg)) = true
    ∧ (containsSub "lang".data msg = true → perform_ocr (.tessErr msg) = langPackError)
    ∧ (containsSub "lang".data msg = false → perform_ocr (.tessErr msg) ≠ langPackError)
    ∧ perform_ocr (.otherErr msg) ≠ langPackError
    ∧ containsSub "Error".data (OcrHelper.perform_ocr (.tessErr msg)) = true
    ∧ containsSub "Error".data (OcrHelper.perform_ocr (.otherErr msg)) = true
    ∧ (containsSub "lang".data msg = true →
        OcrHelper.perform_ocr (.tessErr msg) = OcrHelper.langPackError)
    ∧ (containsSub "lang".data msg = false →
        OcrHelper.perform_ocr (.tessErr msg) ≠ OcrHelper.langPackError)
    ∧ OcrHelper.perform_ocr (.otherErr msg) ≠ OcrHelper.langPackError := by
  intro msg
  refine ⟨?_, ?_, ?_, ?_, ?_, ?_, ?_, ?_, ?_, ?_⟩
  · unfold perform_ocr
    by_cases hl : containsSub "lang".data msg
    · simp only [hl, if_true]
      with_unfolding_all decide
    · simp only [hl, Bool.false_eq_true, if_false]
      exact containsSub_append_right _ _ _ (by with_unfolding_all decide)
  · unfold perform_ocr
    exact containsSub_append_right _ _ _ (by with_unfolding_all decide)
  · intro hl
    unfold perform_ocr
    simp [hl]
  · intro hl
    unfold perform_ocr
    simp only [hl, Bool.false_eq_true, if_false]
    exact ne_of_append_take 1 _ _ _ (by with_unfolding_all decide)
      (by with_unfolding_all decide)
  · unfold perform_ocr
    exact ne_of_append_take 8 _ _ _ (by with_unfolding_all decide)
      (by with_unfolding_all decide)
  · unfold OcrHelper.perform_ocr
    by_cases hl : containsSub "lang".data msg
    · simp only [hl, if_true]
      with_unfolding_all decide
    · simp only [hl, Bool.false_eq_true, if_false]
      exact containsSub_append_right _ _ _ (by with_unfolding_all decide)
  · unfold OcrHelper.perform_ocr
    exact containsSub_append_right _ _ _ (by with_unfolding_all decide)
  · intro hl
    unfold OcrHelper.perform_ocr
    simp [hl]
  · intro hl
    unfold OcrHelper.perform_ocr
    simp only [hl, Bool.false_eq_true, if_false]
    exact ne_of_append_take 1 _ _ _ (by with_unfolding_all decide)
      (by with_unfolding_all decide)
  · unfold OcrHelper.perform_ocr
    exact ne_of_append_take 8 _ _ _ (by with_unfolding_all decide)
      (by with_unfolding_all decide)

/-- C8 witness: the theorem applied to concrete failure messages. -/
theorem C8_error_sentinels_witness :
    containsSub "lang".data "Failed loading language chi_sim".data = true ∧
    perform_ocr (.tessErr "Failed loading language chi_sim".data) = langPackError ∧
    containsSub "lang".data "boom".data = false ∧
    perform_ocr (.tessErr "boom".data) ≠ langPackError ∧
    perform_ocr (.otherErr "no tesseract".data) ≠ langPackError := by
  have h1 : containsSub "lang".data "Failed loading language chi_sim".data = true := by
    with_unfolding_all decide
  have h2 : containsSub "lang".data "boom".data = false := by
    with_unfolding_all decide
  exact ⟨h1, (C8_error_sentinels _).2.2.1 h1, h2, (C8_error_sentinels _).2.2.2.1 h2,
    (C8_error_sentinels "no tesseract".data).2.2.2.2.1⟩
